import Mathlib

/-!
Verification of the evidence-accumulation engine of the burst BCI repository.

The development shallowly embeds the Python sources:
  nodes/accumulation/base.py    (AbstractAccumulation: buffers, recovery gate,
                                 correlation scorer, the update event loop)
  nodes/accumulation/simple.py  (AccumulationPrevalentTarget, AccumulationSteadyPred)
  nodes/accumulation/md.py      (AccumulationMDPred, the momentum stopping branch)
  nodes/accumulation/pomdp.py   (AccumulationPOMDP: solver transition, confusion
                                 matrix regularization)

Modelling conventions:
  * Python floats are modelled as exact rationals; every concrete input below is
    exactly representable in binary floating point, so the modelled arithmetic
    agrees with the float arithmetic of the source on those inputs.
  * scipy.stats.pearsonr is not rational-valued; it is embedded up to the data
    that determines it: the centered sums sxy, sxx, syy (r = sxy / sqrt (sxx*syy)).
    A zero-variance input makes scipy emit ConstantInputWarning, which base.py
    escalates to an exception via warnings.filterwarnings; that outcome is the
    CorrOutcome.nan constructor.
  * numpy argsort order between tied values is unspecified (quicksort); the
    embedding fixes a definite tie rule, and all concrete inputs used in
    theorems have strict maxima so the choice is immaterial.
-/

/-- Values of the probability trace, exactly 0 or 1?  Embeds the guard
`np.all((np.array(x) == 0) | (np.array(x) == 1))` of base.py line 141. -/
def allBinary (x : List ℚ) : Bool :=
  x.all (fun v => v == 0 || v == 1)

/-- Arithmetic mean of a list of rationals (`np.mean` as used inside pearsonr). -/
def listMean (l : List ℚ) : ℚ :=
  l.sum / l.length

/-- Centered cross sum `Σ (xᵢ − mean x) * (yᵢ − mean y)` over the zipped lists. -/
def centeredSum (x y : List ℚ) : ℚ :=
  ((x.map (fun v => v - listMean x)).zip (y.map (fun v => v - listMean y))).foldr
    (fun p a => p.1 * p.2 + a) 0

/-- Outcome of one correlation entry of `AbstractAccumulation.correlation`
(base.py lines 138-150). -/
inductive CorrOutcome where
  /-- The forced branch (lines 144-145): correlation and p-value returned without
  running pearsonr. -/
  | exact (corr pval : ℚ)
  /-- pearsonr on a zero-variance input: scipy raises ConstantInputWarning, which
  the module-level warning filter of base.py escalates to an exception (or, absent
  the filter, pearsonr returns NaN). -/
  | nan
  /-- pearsonr genuinely computed; the real correlation is sxy / sqrt (sxx * syy)
  and the p-value is derived from it, neither rational in general. -/
  | pearson (sxy sxx syy : ℚ)
  deriving DecidableEq

/-- One entry of the correlation loop body (base.py lines 138-150): the guard
tests whether every value of `x` is 0 or 1; only then are correlation and
p-value forced to 0 and 1e-8.  Otherwise pearsonr runs on (x, y). -/
def corrEntry (x y : List ℚ) : CorrOutcome :=
  if allBinary x then CorrOutcome.exact 0 (1 / 100000000)
  else if centeredSum x x = 0 ∨ centeredSum y y = 0 then CorrOutcome.nan
  else CorrOutcome.pearson (centeredSum x y) (centeredSum x x) (centeredSum y y)

/-- `AbstractAccumulation.correlation` (base.py lines 121-152): for each code,
build `y = [code[i] for i in indices]` and score it against the trace `x`.
Out-of-range indices are totalized with `getD` (the theorems below restrict to
valid phase indices, where Python would not raise IndexError). -/
def correlation (codes : List (List ℕ)) (x : List ℚ) (indices : List ℕ) :
    List CorrOutcome :=
  codes.map (fun code => corrEntry x (indices.map (fun i => ((code.getD i 0 : ℕ) : ℚ))))

/-- C9: if every value of the trace is 0 or 1 — including non-constant binary
traces with positive variance — the guard of base.py line 141 fires for every
code, so the Pearson computation is skipped and every entry is the forced pair
(correlation 0, p-value 1e-8). -/
theorem correlation_binary_trace_forced (codes : List (List ℕ)) (x : List ℚ)
    (indices : List ℕ) (hx : allBinary x = true) :
    ∀ o ∈ correlation codes x indices, o = CorrOutcome.exact 0 (1 / 100000000) := by
  intro o ho
  rcases List.mem_map.mp ho with ⟨code, _, rfl⟩
  simp [corrEntry, hx]

/-- C9 witness: the non-constant binary trace [0, 1, 1] with valid phase indices
yields the forced entry for the code [1, 0, 1]. -/
theorem correlation_binary_trace_forced_witness :
    allBinary [(0 : ℚ), 1, 1] = true ∧
      ∀ o ∈ correlation [[1, 0, 1]] [(0 : ℚ), 1, 1] [0, 1, 2],
        o = CorrOutcome.exact 0 (1 / 100000000) :=
  ⟨rfl, correlation_binary_trace_forced [[1, 0, 1]] [(0 : ℚ), 1, 1] [0, 1, 2] rfl⟩

/-- C1: the constant probability trace [1/2, 1/2, 1/2] does NOT take the forced
branch — the guard of base.py line 141 tests for binary values, not constancy —
so pearsonr runs on a zero-variance input and raises (the module-level warning
filter turns scipy's ConstantInputWarning into an exception) instead of
returning correlation 0 with p-value 1e-8 as the claim and the code's own
comment (base.py lines 142-143) require. -/
theorem correlation_constant_trace_bug :
    correlation [[0, 1, 0]] [(1 : ℚ)/2, 1/2, 1/2] [0, 1, 2] = [CorrOutcome.nan] ∧
      CorrOutcome.nan ≠ CorrOutcome.exact 0 (1 / 100000000) := by
  constructor
  · norm_num [correlation, corrEntry, allBinary, centeredSum, listMean]
  · intro h
    exact CorrOutcome.noConfusion h

/-- Append to a bounded FIFO and evict the oldest element when the capacity is
exceeded — the single-list view of base.py lines 103-107. -/
def pushBounded (maxB : ℕ) (buf : List α) (x : α) : List α :=
  let b := buf ++ [x]
  if maxB < b.length then b.drop 1 else b

/-- base.py lines 103-107: append to both circular buffers, then pop the front
of both when `len(self._probas)` exceeds `max_buffer_size`. -/
def pushSample (maxB : ℕ) (ps : List ℚ) (idx : List ℕ) (p : ℚ) (i : ℕ) :
    List ℚ × List ℕ :=
  let ps2 := ps ++ [p]
  let idx2 := idx ++ [i]
  if maxB < ps2.length then (ps2.drop 1, idx2.drop 1) else (ps2, idx2)

/-- The two parallel buffers after a sequence of accepted predict_proba frames,
starting from the state produced by `reset()` (both buffers empty). -/
def pushRun (maxB : ℕ) (samples : List (ℚ × ℕ)) : List ℚ × List ℕ :=
  samples.foldl (fun b xy => pushSample maxB b.1 b.2 xy.1 xy.2) ([], [])

theorem pushBounded_length (maxB : ℕ) (buf : List α) (x : α) :
    (pushBounded maxB buf x).length =
      if maxB < buf.length + 1 then buf.length else buf.length + 1 := by
  unfold pushBounded
  simp only [List.length_append, List.length_singleton]
  split <;> simp

theorem pushSample_eq_pushBounded (maxB : ℕ) (ps : List ℚ) (idx : List ℕ)
    (p : ℚ) (i : ℕ) (h : ps.length = idx.length) :
    pushSample maxB ps idx p i = (pushBounded maxB ps p, pushBounded maxB idx i) := by
  unfold pushSample pushBounded
  simp only [List.length_append, List.length_singleton, h]
  split <;> rfl

theorem foldl_pushBounded (maxB : ℕ) :
    ∀ (xs : List α) (buf : List α), buf.length ≤ maxB →
      xs.foldl (pushBounded maxB) buf = (buf ++ xs).drop (buf.length + xs.length - maxB)
  | [], buf, h => by
      simp [Nat.sub_eq_zero_of_le h]
  | x :: xs, buf, h => by
      rw [List.foldl_cons]
      rcases Nat.lt_or_ge buf.length maxB with hlt | hge
      · have hpush : pushBounded maxB buf x = buf ++ [x] := by
          unfold pushBounded
          rw [if_neg]
          simp
          omega
        have hlen : (buf ++ [x]).length ≤ maxB := by
          simp
          omega
        rw [hpush, foldl_pushBounded maxB xs (buf ++ [x]) hlen]
        simp [List.append_assoc]
        congr 1
        omega
      · have heq : buf.length = maxB := Nat.le_antisymm h hge
        have hpush : pushBounded maxB buf x = (buf ++ [x]).drop 1 := by
          unfold pushBounded
          rw [if_pos]
          simp
          omega
        have hlen : ((buf ++ [x]).drop 1).length ≤ maxB := by
          simp
          omega
        rw [hpush, foldl_pushBounded maxB xs _ hlen]
        have hl1 : ((buf ++ [x]).drop 1).length = maxB := by
          simp
          omega
        rw [hl1]
        have h1 : maxB + xs.length - maxB = xs.length := by omega
        have h2 : buf.length + (x :: xs).length - maxB = xs.length + 1 := by
          simp
          omega
        have hsplit : buf ++ x :: xs = (buf ++ [x]) ++ xs := by
          simp
        rw [h1, h2, hsplit]
        have hone : (1 : ℕ) ≤ (buf ++ [x]).length := by
          simp
        calc List.drop xs.length (List.drop 1 (buf ++ [x]) ++ xs)
            = List.drop xs.length (List.drop 1 ((buf ++ [x]) ++ xs)) := by
              rw [List.drop_append_of_le_length hone]
          _ = List.drop (1 + xs.length) ((buf ++ [x]) ++ xs) := by
              rw [List.drop_drop]
          _ = List.drop (xs.length + 1) ((buf ++ [x]) ++ xs) := by
              rw [Nat.add_comm]

theorem pushRun_aux (maxB : ℕ) :
    ∀ (samples : List (ℚ × ℕ)) (ps : List ℚ) (idx : List ℕ),
      ps.length = idx.length →
      samples.foldl (fun b xy => pushSample maxB b.1 b.2 xy.1 xy.2) (ps, idx) =
        ((samples.map Prod.fst).foldl (pushBounded maxB) ps,
         (samples.map Prod.snd).foldl (pushBounded maxB) idx)
  | [], ps, idx, _ => by simp
  | xy :: samples, ps, idx, h => by
      rw [List.foldl_cons, List.map_cons, List.map_cons, List.foldl_cons,
        List.foldl_cons]
      have hstep := pushSample_eq_pushBounded maxB ps idx xy.1 xy.2 h
      rw [hstep]
      have hlen : (pushBounded maxB ps xy.1).length = (pushBounded maxB idx xy.2).length := by
        rw [pushBounded_length, pushBounded_length, h]
      exact pushRun_aux maxB samples _ _ hlen

/-- C2: the two parallel circular buffers never exceed `max_buffer_size`, stay in
lockstep, and after `max_buffer_size + k` accepted pushes (k ≥ 0) since the last
reset they hold exactly the `max_buffer_size` most recent samples in arrival
order (oldest evicted first). -/
theorem evidence_buffer_bounded (maxB : ℕ) (samples : List (ℚ × ℕ)) :
    (pushRun maxB samples).1.length ≤ maxB ∧
    (pushRun maxB samples).2.length = (pushRun maxB samples).1.length ∧
    (maxB ≤ samples.length →
      (pushRun maxB samples).1.length = maxB ∧
      (pushRun maxB samples).1 = (samples.map Prod.fst).drop (samples.length - maxB) ∧
      (pushRun maxB samples).2 = (samples.map Prod.snd).drop (samples.length - maxB)) := by
  have h0 : ([] : List ℚ).length = ([] : List ℕ).length := rfl
  have hrun : pushRun maxB samples =
      ((samples.map Prod.fst).foldl (pushBounded maxB) [],
       (samples.map Prod.snd).foldl (pushBounded maxB) []) := by
    unfold pushRun
    exact pushRun_aux maxB samples [] [] h0
  have hfst : (pushRun maxB samples).1 =
      (samples.map Prod.fst).drop (samples.length - maxB) := by
    rw [hrun]
    have := foldl_pushBounded maxB (samples.map Prod.fst) [] (by simp)
    simpa using this
  have hsnd : (pushRun maxB samples).2 =
      (samples.map Prod.snd).drop (samples.length - maxB) := by
    rw [hrun]
    have := foldl_pushBounded maxB (samples.map Prod.snd) [] (by simp)
    simpa using this
  refine ⟨?_, ?_, fun hge => ⟨?_, hfst, hsnd⟩⟩
  · rw [hfst]
    simp
    omega
  · rw [hfst, hsnd]
    simp
  · rw [hfst]
    simp
    omega

/-- C2 witness: with capacity 2, pushing three samples leaves exactly the two
most recent (probability, phase-index) pairs, in order. -/
theorem evidence_buffer_bounded_witness :
    (pushRun 2 [((1 : ℚ), 0), (1/2, 1), (1/4, 2)]).1 = [1/2, 1/4] ∧
    (pushRun 2 [((1 : ℚ), 0), (1/2, 1), (1/4, 2)]).2 = [1, 2] ∧
    (pushRun 2 [((1 : ℚ), 0), (1/2, 1), (1/4, 2)]).1.length = 2 := by
  have h := evidence_buffer_bounded 2 [((1 : ℚ), 0), (1/2, 1), (1/4, 2)]
  have h3 := h.2.2 (by norm_num)
  refine ⟨?_, ?_, h3.1⟩
  · rw [h3.2.1]
    rfl
  · rw [h3.2.2]
    rfl

/-- State of the abstract accumulation engine (base.py `reset`, lines 154-158):
the two circular buffers, the refractory marker `_recovery` (Python `False` is
`none`; a timestamp `t` is `some t`, and a stored `0.0` is falsy in Python,
which the step function reproduces), and the accepted-frame counter. -/
structure EngineState where
  probas : List ℚ
  indices : List ℕ
  recovery : Option ℚ
  frames : ℕ
  deriving DecidableEq

/-- `AbstractAccumulation.reset` (base.py lines 154-158). -/
def engineInit : EngineState :=
  ⟨[], [], none, 0⟩

/-- Acceptance of one predict_proba frame (base.py lines 99-107): bump the frame
counter and append to the circular buffers.  (The abstract base class has a
no-op `decision`, so nothing else happens.) -/
def acceptFrame (maxB : ℕ) (s : EngineState) (p : ℚ) (i : ℕ) : EngineState × Bool :=
  let b := pushSample maxB s.probas s.indices p i
  ({ s with frames := s.frames + 1, probas := b.1, indices := b.2 }, true)

/-- One predict_proba frame through the refractory gate (base.py lines 91-97)
followed by acceptance.  The Boolean reports whether the frame was accepted
(`false` = dropped by `continue`).  While `_recovery` holds a truthy timestamp
`r`: a frame at `ts` is dropped unless `ts - r > recovery`, and a drop stores
`ts` as the new refractory reference; the first frame with `ts - r > recovery`
clears `_recovery` and is accepted. -/
def stepFrame (recoveryCfg : ℚ) (maxB : ℕ) (s : EngineState) (ts p : ℚ) (i : ℕ) :
    EngineState × Bool :=
  match s.recovery with
  | some r =>
    if r ≠ 0 then
      if recoveryCfg < ts - r then acceptFrame maxB { s with recovery := none } p i
      else ({ s with recovery := some ts }, false)
    else acceptFrame maxB s p i
  | none => acceptFrame maxB s p i

/-- C7 counterexample: with `recovery = 300` and a prediction emitted at
t = 1000 (so `_recovery = 1000`), the frame at exactly t = 1300 is DROPPED —
`1300 - 1000 > 300` is false — with buffers and frame counter untouched and the
refractory reference refreshed to 1300.  The claim "the first frame at t ≥ 1300
is accepted" therefore fails at t = 1300. -/
theorem recovery_boundary_frame_dropped :
    stepFrame 300 200 ⟨[1/2, 1/4], [0, 1], some 1000, 7⟩ 1300 (9/10) 5 =
      (⟨[1/2, 1/4], [0, 1], some 1300, 7⟩, false) := by
  norm_num [stepFrame]

/-- C7 (amended): while the refractory reference is a truthy timestamp `r`, a
frame at `ts` with `ts - r ≤ recovery` is dropped without modifying the buffers
or the frame counter and refreshes the refractory reference to `ts` (so
suppression extends until `recovery` ms have elapsed after the last dropped
frame), and a frame with `ts - r > recovery` (strictly) clears the refractory
state and is accepted into the buffers. -/
theorem recovery_gate_spec (recoveryCfg : ℚ) (maxB : ℕ) (s : EngineState)
    (ts p : ℚ) (i : ℕ) (r : ℚ) (hr : s.recovery = some r) (hr0 : r ≠ 0) :
    (ts - r ≤ recoveryCfg →
      stepFrame recoveryCfg maxB s ts p i = ({ s with recovery := some ts }, false)) ∧
    (recoveryCfg < ts - r →
      stepFrame recoveryCfg maxB s ts p i =
        acceptFrame maxB { s with recovery := none } p i ∧
      (stepFrame recoveryCfg maxB s ts p i).1.frames = s.frames + 1 ∧
      (stepFrame recoveryCfg maxB s ts p i).2 = true) := by
  constructor
  · intro hle
    simp [stepFrame, hr, hr0, not_lt.mpr hle]
  · intro hgt
    simp [stepFrame, hr, hr0, hgt, acceptFrame]

/-- C7 witness: a prediction at t = 1000 with recovery 300; the frame at
t = 1200 is dropped (refreshing the reference to 1200) and a frame at t = 1600
seen against reference 1200 is accepted with the frame counter bumped. -/
theorem recovery_gate_spec_witness :
    stepFrame 300 200 ⟨[], [], some 1000, 0⟩ 1200 (1/2) 3 =
      (⟨[], [], some 1200, 0⟩, false) ∧
    (stepFrame 300 200 ⟨[], [], some 1200, 0⟩ 1600 (1/2) 4).1.frames = 1 ∧
    (stepFrame 300 200 ⟨[], [], some 1200, 0⟩ 1600 (1/2) 4).2 = true := by
  have h1 := (recovery_gate_spec 300 200 ⟨[], [], some 1000, 0⟩ 1200 (1/2) 3 1000
    rfl (by norm_num)).1 (by norm_num)
  have h2 := (recovery_gate_spec 300 200 ⟨[], [], some 1200, 0⟩ 1600 (1/2) 4 1200
    rfl (by norm_num)).2 (by norm_num)
  exact ⟨h1, h2.2.1, h2.2.2⟩

/-- One row of the input frame of `AbstractAccumulation.update` (base.py lines
65-116): a control row (`reset`, `ready`) or a predict_proba row carrying its
probability together with the epoch meta data (onset timestamp, phase index)
consumed from the epochs iterator. -/
inductive Row where
  | reset
  | ready
  | predictProba (ts p : ℚ) (index : ℕ)
  deriving DecidableEq

/-- Events the abstract engine can place on its output port. -/
inductive Event where
  | ready
  deriving DecidableEq

/-- The row loop of `AbstractAccumulation.update` (base.py lines 65-116) for the
abstract class (whose `decision` is a no-op): `reset` rows reset the state,
`ready` rows emit a ready event and RETURN — abandoning every remaining row of
the batch — and predict_proba rows run the refractory gate and buffer update. -/
def processRows (recoveryCfg : ℚ) (maxB : ℕ) : EngineState → List Row →
    EngineState × List Event
  | s, [] => (s, [])
  | s, Row.reset :: rest => processRows recoveryCfg maxB engineInit rest
  | s, Row.ready :: rest => (s, [Event.ready])
  | s, Row.predictProba ts p i :: rest =>
      processRows recoveryCfg maxB (stepFrame recoveryCfg maxB s ts p i).1 rest

/-- C10: when a `ready` row is reached, `update` emits the ready event and
returns immediately: the result — state and emitted events — is exactly that of
processing the rows before the `ready` row, so every later row of the batch
(including predict_proba and reset rows) is discarded unprocessed. -/
theorem ready_row_discards_rest (recoveryCfg : ℚ) (maxB : ℕ) :
    ∀ (pre : List Row) (s : EngineState) (post : List Row), Row.ready ∉ pre →
      processRows recoveryCfg maxB s (pre ++ Row.ready :: post) =
        ((processRows recoveryCfg maxB s pre).1, [Event.ready])
  | [], s, post, _ => by
      simp [processRows]
  | Row.reset :: pre, s, post, h => by
      rw [List.cons_append]
      show processRows recoveryCfg maxB engineInit (pre ++ Row.ready :: post) = _
      rw [ready_row_discards_rest recoveryCfg maxB pre engineInit post
        (fun hm => h (List.mem_cons_of_mem _ hm))]
      rfl
  | Row.ready :: pre, s, post, h => by
      exact absurd (List.mem_cons_self _ _) h
  | Row.predictProba ts p i :: pre, s, post, h => by
      rw [List.cons_append]
      show processRows recoveryCfg maxB (stepFrame recoveryCfg maxB s ts p i).1
        (pre ++ Row.ready :: post) = _
      rw [ready_row_discards_rest recoveryCfg maxB pre _ post
        (fun hm => h (List.mem_cons_of_mem _ hm))]
      rfl

/-- C10 witness: a batch holding a reset row, then ready, then a further
predict_proba and reset row; the trailing rows are discarded and only the ready
event is emitted. -/
theorem ready_row_discards_rest_witness :
    processRows 300 200 engineInit
        ([Row.reset] ++ Row.ready :: [Row.predictProba 1 (1/2) 0, Row.reset]) =
      ((processRows 300 200 engineInit [Row.reset]).1, [Event.ready]) :=
  ready_row_discards_rest 300 200 [Row.reset] engineInit
    [Row.predictProba 1 (1/2) 0, Row.reset] (by decide)

/-- Index of the maximum of a list of correlations —
`np.flip(np.argsort(correlations))[0]`.  numpy leaves the order of tied values
unspecified; this model takes the first index attaining the maximum, and every
concrete input below has a strict maximum. -/
def argmaxAux (pos bi : ℕ) (bv : ℚ) : List ℚ → ℕ
  | [] => bi
  | v :: rest => if bv < v then argmaxAux (pos + 1) pos v rest
                 else argmaxAux (pos + 1) bi bv rest

/-- Winner of a frame: the argmax index of the correlation list. -/
def argmaxIdx : List ℚ → ℕ
  | [] => 0
  | v :: rest => argmaxAux 1 0 v rest

/-- Largest multiplicity occurring in the winners list — `counts[best[0]]` of
simple.py lines 40-42. -/
def maxCount (l : List ℕ) : ℕ :=
  (l.map (fun v => l.count v)).foldr max 0

/-- The mode (`values[best[0]]`): a value of maximal multiplicity.  numpy's
argsort leaves the choice among equal counts unspecified; this model takes the
largest such value. -/
def modeTarget (l : List ℕ) : ℕ :=
  (l.filter (fun v => l.count v == maxCount l)).foldr max 0

/-- Configuration of `AccumulationPrevalentTarget` (simple.py lines 9-26). -/
structure PTConfig where
  numTargets : ℕ
  minBufferSize : ℕ
  maxBufferSize : ℕ
  minFramesPred : ℕ
  maxFramesPred : ℕ
  recovery : ℚ

/-- State of `AccumulationPrevalentTarget`: the base-class state and the list
`_accu` of per-frame winners. -/
structure PTState where
  probas : List ℚ
  indices : List ℕ
  recovery : Option ℚ
  frames : ℕ
  accu : List ℕ

/-- `AccumulationPrevalentTarget.reset` followed by `_recovery = timestamp`
(simple.py lines 53-54 and 66-67, 72-74). -/
def ptReset (ts : ℚ) : PTState :=
  ⟨[], [], some ts, 0, []⟩

/-- The vote of `AccumulationPrevalentTarget.decision` (simple.py lines 39-70)
once the winners list has been extended: emission happens when the list is
longer than `min_frames_pred` and either the RAW COUNT of the most frequent
winner exceeds `1.1 / len(self.codes)` (line 42 — the count, an integer ≥ 1, is
compared against 1.1/numTargets, NOT the count divided by the list length), or
the list has reached `max_frames_pred` (line 55). -/
def ptDecision (cfg : PTConfig) (accu : List ℕ) : Option ℕ :=
  if cfg.minFramesPred < accu.length then
    if ((11 : ℚ)/10) / (cfg.numTargets : ℚ) < (maxCount accu : ℚ) then
      some (modeTarget accu)
    else if cfg.maxFramesPred ≤ accu.length then
      some (modeTarget accu)
    else none
  else none

/-- One frame of `AccumulationPrevalentTarget` that passed the refractory gate
(base.py lines 99-116 followed by simple.py `decision`).  The correlations of
the frame — scipy Pearson values on the current buffer — enter as the oracle
input `corrs`. -/
def ptAccept (cfg : PTConfig) (s : PTState) (ts p : ℚ) (i : ℕ) (corrs : List ℚ) :
    PTState × Option ℕ :=
  let b := pushSample cfg.maxBufferSize s.probas s.indices p i
  let s1 : PTState := { s with frames := s.frames + 1, probas := b.1, indices := b.2 }
  if s1.probas.length < cfg.minBufferSize then (s1, none)
  else
    let target := argmaxIdx corrs
    let accu2 := s1.accu ++ [target]
    match ptDecision cfg accu2 with
    | some t => (ptReset ts, some t)
    | none => ({ s1 with accu := accu2 }, none)

/-- One frame of `AccumulationPrevalentTarget`, refractory gate included. -/
def ptStep (cfg : PTConfig) (s : PTState) (ts p : ℚ) (i : ℕ) (corrs : List ℚ) :
    PTState × Option ℕ :=
  match s.recovery with
  | some r =>
    if r ≠ 0 then
      if cfg.recovery < ts - r then ptAccept cfg { s with recovery := none } ts p i corrs
      else ({ s with recovery := some ts }, none)
    else ptAccept cfg s ts p i corrs
  | none => ptAccept cfg s ts p i corrs

/-- A run of PrevalentTarget frames from the freshly constructed state,
collecting emitted predictions. -/
def ptRun (cfg : PTConfig) (inputs : List (ℚ × ℚ × ℕ × List ℚ)) :
    PTState × List ℕ :=
  inputs.foldl
    (fun acc inp =>
      let r := ptStep cfg acc.1 inp.1 inp.2.1 inp.2.2.1 inp.2.2.2
      (r.1, acc.2 ++ (r.2.map (fun t => [t])).getD []))
    (⟨[], [], none, 0, []⟩, [])

/-- A 4-target PrevalentTarget configuration with `min_frames_pred = 3`,
`max_frames_pred = 300`, `min_buffer_size = 1`. -/
def cfgPT4 : PTConfig :=
  ⟨4, 1, 200, 3, 300, 300⟩

/-- Four accepted frames whose correlation oracles make the winners 0, 1, 2, 3
in turn. -/
def ptInputs4 : List (ℚ × ℚ × ℕ × List ℚ) :=
  [(1, 1/2, 0, [1, 0, 0, 0]),
   (2, 1/2, 1, [0, 1, 0, 0]),
   (3, 1/2, 2, [0, 0, 1, 0]),
   (4, 1/2, 3, [0, 0, 0, 1])]

/-- The PrevalentTarget state reached from reset after the first three frames
of `ptInputs4` (winners 0, 1, 2). -/
def ptState3 : PTState :=
  ⟨[1/2, 1/2, 1/2], [0, 1, 2], none, 3, [0, 1, 2]⟩

/-- C3 counterexample: after the winners 0, 1, 2 (state `ptState3`, reached
from reset by the first three frames) the fourth frame extends the list to
[0, 1, 2, 3] — length 4 > min_frames_pred = 3, mode count 1, mode ratio
1/4 ≤ 1.1/4, length 4 < max_frames_pred = 300 — yet the code EMITS a
prediction, because line 42 of simple.py compares the raw count 1 (not the
ratio 1/4) against 1.1/4 = 0.275.  The claim ("emits exactly when the count
ratio exceeds 1.1/numTargets") is false here. -/
theorem prevalent_target_ratio_counterexample :
    (ptRun cfgPT4 (ptInputs4.take 3)).1 = ptState3 ∧
    (ptStep cfgPT4 ptState3 4 (1/2) 3 [0, 0, 0, 1]).2 = some (modeTarget [0, 1, 2, 3]) ∧
    ((maxCount [0, 1, 2, 3] : ℚ) / 4 ≤ (11 : ℚ)/10 / 4) ∧
    (4 < cfgPT4.maxFramesPred) := by
  have hmc : maxCount [0, 1, 2, 3] = 1 := rfl
  have hdec : ptDecision cfgPT4 [0, 1, 2, 3] = some (modeTarget [0, 1, 2, 3]) := by
    unfold ptDecision
    rw [if_pos (by decide : cfgPT4.minFramesPred < ([0, 1, 2, 3] : List ℕ).length),
      if_pos]
    rw [hmc]
    norm_num [cfgPT4]
  refine ⟨rfl, ?_, ?_, by decide⟩
  · show (ptAccept cfgPT4 ptState3 4 (1/2) 3 [0, 0, 0, 1]).2 =
      some (modeTarget [0, 1, 2, 3])
    unfold ptAccept
    simp only [ptState3, pushSample, cfgPT4, argmaxIdx, argmaxAux]
    norm_num
    have hdec2 : ptDecision
        { numTargets := 4, minBufferSize := 1, maxBufferSize := 200,
          minFramesPred := 3, maxFramesPred := 300, recovery := 300 }
        [0, 1, 2, 3] = some (modeTarget [0, 1, 2, 3]) := hdec
    rw [hdec2]
  · rw [hmc]
    norm_num

/-- C3 (amended): once the winners list is longer than `min_frames_pred`, the
decision emits the mode exactly when the RAW COUNT of the most frequent winner
exceeds `1.1/numTargets`, or — failing that — when the list has reached
`max_frames_pred`; otherwise nothing is emitted.  (Since a count is at least 1
and `1.1/numTargets ≤ 0.55` for two or more targets, the first condition is
then always met.) -/
theorem prevalent_target_decision_spec (cfg : PTConfig) (accu : List ℕ) :
    (ptDecision cfg accu = some (modeTarget accu) ↔
      cfg.minFramesPred < accu.length ∧
        (((11 : ℚ)/10) / (cfg.numTargets : ℚ) < (maxCount accu : ℚ) ∨
          cfg.maxFramesPred ≤ accu.length)) ∧
    (ptDecision cfg accu = none ↔
      ¬(cfg.minFramesPred < accu.length ∧
        (((11 : ℚ)/10) / (cfg.numTargets : ℚ) < (maxCount accu : ℚ) ∨
          cfg.maxFramesPred ≤ accu.length))) := by
  unfold ptDecision
  split
  · split
    · simp_all
    · split
      · simp_all
      · simp_all
  · simp_all

/-- C3 amended-claim witness: with winners [0, 1, 2, 3] the decision of
`cfgPT4` emits (count 1 exceeds 1.1/4), matching the characterization. -/
theorem prevalent_target_decision_spec_witness :
    ptDecision cfgPT4 [0, 1, 2, 3] = some (modeTarget [0, 1, 2, 3]) :=
  (prevalent_target_decision_spec cfgPT4 [0, 1, 2, 3]).1.mpr
    ⟨by norm_num [cfgPT4], Or.inl (by norm_num [cfgPT4, maxCount])⟩

/-- A Python runtime error relevant to the embedded code. -/
inductive PyError where
  | attributeError
  deriving DecidableEq

/-- Configuration of `AccumulationSteadyPred` (simple.py lines 78-105). -/
structure SteadyConfig where
  numTargets : ℕ
  minBufferSize : ℕ
  maxBufferSize : ℕ
  minFramesPred : ℕ
  maxFramesPred : ℕ
  recovery : ℚ
  correlationThreshold : ℚ
  diffCorrelationThreshold : ℚ

/-- State of `AccumulationSteadyPred`.  The fields `accCorrs` and `accCorrsId`
model the Python attributes `_accumulated_correlations` and
`_accumulated_correlations_id`; `none` means the attribute was never assigned
(reading it raises AttributeError).  NO code path of simple.py ever assigns
them before `decision` reads them at lines 113 and 117: neither `__init__`
(lines 78-105) nor `reset` (lines 169-173) mentions them, and the assignments
at lines 114/116 sit below the raising read of line 113. -/
structure SteadyState where
  probas : List ℚ
  indices : List ℕ
  recovery : Option ℚ
  frames : ℕ
  currentTarget : ℤ
  targetAcc : ℕ
  preds : List ℕ
  accCorrs : Option (List (List ℚ))
  accCorrsId : Option (List ℚ)

/-- The state after `AccumulationSteadyPred.__init__` (reset, then lines
98-100: `_current_target = 0`, `_target_acc = 0`, zeroed `_preds`). -/
def steadyInit (n : ℕ) : SteadyState :=
  ⟨[], [], none, 0, 0, 0, List.replicate n 0, none, none⟩

/-- `AccumulationSteadyPred.reset` (simple.py lines 169-173) followed by
`_recovery = timestamp`; note it does NOT touch the accumulated-correlations
attributes. -/
def steadyReset (n : ℕ) (ts : ℚ) (s : SteadyState) : SteadyState :=
  { s with probas := [], indices := [], recovery := some ts, frames := 0,
           currentTarget := -1, targetAcc := 0, preds := List.replicate n 0 }

/-- Value at the second position of `np.flip(np.argsort(corrs))` — the second
order statistic of the list, whatever tie order numpy picks. -/
def secondVal (l : List ℚ) : ℚ :=
  let rest := l.eraseIdx (argmaxIdx l)
  rest.getD (argmaxIdx rest) 0

/-- Increment the per-target counter of `self._preds` at key `t`
(simple.py lines 132-134). -/
def updateCount (preds : List ℕ) (t : ℤ) : List ℕ :=
  preds.mapIdx (fun i c => if (i : ℤ) = t then c + 1 else c)

/-- `max(self._preds, key=self._preds.get)`: the first key (dict order is
insertion order 0, 1, …) attaining the maximal count. -/
def argmaxCount (preds : List ℕ) : ℤ :=
  (preds.findIdx (fun c => c == preds.foldr max 0) : ℤ)

/-- `AccumulationSteadyPred.decision` (simple.py lines 107-167), with the scipy
Pearson correlations of the current buffer supplied as the oracle `corrs`.
Lines 113 and 117 read the never-assigned attributes `_accumulated_correlations`
and `_accumulated_correlations_id`, so the method raises AttributeError before
any of the stopping logic (lines 122-167) can run. -/
def steadyDecision (cfg : SteadyConfig) (s : SteadyState) (ts : ℚ)
    (corrs : List ℚ) : Except PyError (SteadyState × Option (ℤ × ℕ)) :=
  match s.accCorrs with
  | none => Except.error PyError.attributeError
  | some hist =>
    match s.accCorrsId with
    | none => Except.error PyError.attributeError
    | some ids =>
      let hist2 := hist ++ [corrs]
      let ids2 := ids ++ [ts]
      let target : ℤ := (argmaxIdx corrs : ℤ)
      let top := corrs.getD (argmaxIdx corrs) 0
      let diffCorrelation := top - secondVal corrs
      let keep : Bool :=
        decide (target = s.currentTarget) &&
          decide (cfg.correlationThreshold < top) &&
          decide (cfg.diffCorrelationThreshold < diffCorrelation)
      let ct := if keep then s.currentTarget else target
      let ta := if keep then s.targetAcc + 1 else 1
      let preds2 := updateCount s.preds ct
      let s2 :=
        { s with
          accCorrs := some hist2
          accCorrsId := some ids2
          currentTarget := ct
          targetAcc := ta
          preds := preds2 }
      if cfg.minFramesPred < ta then
        Except.ok (steadyReset cfg.numTargets ts s2, some (ct, s2.frames))
      else if cfg.maxFramesPred ≤ s2.frames then
        Except.ok (steadyReset cfg.numTargets ts s2, some (argmaxCount preds2, s2.frames))
      else Except.ok (s2, none)

/-- Acceptance of a predict_proba frame by SteadyPred (base.py lines 99-116):
buffer update, then `decision` once the buffer has reached `min_buffer_size`. -/
def steadyAccept (cfg : SteadyConfig) (s : SteadyState) (ts p : ℚ) (i : ℕ)
    (corrs : List ℚ) : Except PyError (SteadyState × Option (ℤ × ℕ)) :=
  let b := pushSample cfg.maxBufferSize s.probas s.indices p i
  let s1 := { s with frames := s.frames + 1, probas := b.1, indices := b.2 }
  if s1.probas.length < cfg.minBufferSize then Except.ok (s1, none)
  else steadyDecision cfg s1 ts corrs

/-- One predict_proba frame of SteadyPred, refractory gate included. -/
def steadyStep (cfg : SteadyConfig) (s : SteadyState) (ts p : ℚ) (i : ℕ)
    (corrs : List ℚ) : Except PyError (SteadyState × Option (ℤ × ℕ)) :=
  match s.recovery with
  | some r =>
    if r ≠ 0 then
      if cfg.recovery < ts - r then
        steadyAccept cfg { s with recovery := none } ts p i corrs
      else Except.ok ({ s with recovery := some ts }, none)
    else steadyAccept cfg s ts p i corrs
  | none => steadyAccept cfg s ts p i corrs

/-- A 2-target SteadyPred configuration with `min_buffer_size = 1`, so the very
first accepted frame is a decision frame. -/
def cfgSteady2 : SteadyConfig :=
  ⟨2, 1, 200, 30, 300, 300, 0, 0⟩

/-- C4: the very first decision frame of `AccumulationSteadyPred` raises
AttributeError — `decision` reads `self._accumulated_correlations` (line 113),
an attribute that no constructor or reset ever assigns — so the stopping rule
of lines 122-167 is unreachable: the node emits no prediction on ANY decision
frame, in particular not on a frame with the counter at `max_frames_pred`. -/
theorem steady_pred_decision_raises :
    steadyStep cfgSteady2 (steadyInit 2) 5 (9/10) 0 [3/4, 1/4] =
      Except.error PyError.attributeError ∧
    (steadyInit 2).accCorrs = none := by
  exact ⟨rfl, rfl⟩

/-- Configuration of the momentum stopping branch of `AccumulationMDPred`
(md.py lines 164-194): `momentum_threshold`, `min_frames_pred`, the too-close
threshold fixed at 0.05 (line 194), and `momentum_floor`. -/
structure MDConfig where
  momentumThreshold : ℚ
  minFramesPred : ℕ
  tooclose : ℚ
  momentumFloor : ℚ

/-- The strictly positive advantage gaps of md.py lines 274-277: normalize the
momenta to `res = M / sum(M)` and keep `(res[target] - res)[res[target] - res > 0]`
— candidates tied with or exceeding the leader are FILTERED OUT. -/
def momentumGaps (M : List ℚ) (target : ℕ) : List ℚ :=
  let res := M.map (fun v => v / M.sum)
  (res.map (fun v => res.getD target 0 - v)).filter (fun d => decide (0 < d))

/-- The stopping branch of `AccumulationMDPred.decision` (md.py lines 269-306):
entered when `M[target] > momentum_threshold` and `consec[target] >
min_frames_pred`; if any retained gap is ≤ 0.05 all momenta are halved and
nothing is emitted (lines 278-282), otherwise the target is emitted and
`reset()` restores the momenta to `momentum_floor * ones` (lines 284-302,
308-312). -/
def mdStopBranch (cfg : MDConfig) (M : List ℚ) (target : ℕ) (consecT : ℕ) :
    List ℚ × Option ℕ :=
  if cfg.momentumThreshold < M.getD target 0 ∧ cfg.minFramesPred < consecT then
    if (momentumGaps M target).any (fun d => decide (d ≤ cfg.tooclose)) then
      (M.map (fun v => v / 2), none)
    else
      (M.map (fun _ => cfg.momentumFloor), some target)
  else (M, none)

/-- Momentum configuration used in the concrete statements below. -/
def cfgMD : MDConfig :=
  ⟨0, 1, 1/20, 0⟩

/-- C5 counterexample: two exactly tied momenta [1, 1] with the winning target 0
inside the stopping branch (M[0] = 1 > threshold, consec = 2 > min_frames_pred):
the other candidate's normalized advantage gap is 1/2 − 1/2 = 0 < 0.05, yet the
branch EMITS target 0 — the zero gap is removed by the strictly-positive filter
of md.py line 276, so the too-close guard never sees it.  The claim ("emits
exactly when the advantage over every other candidate is at least 0.05") is
false here. -/
theorem momentum_tie_emits_counterexample :
    (mdStopBranch cfgMD [1, 1] 0 2).2 = some 0 ∧
    cfgMD.momentumThreshold < ([1, 1] : List ℚ).getD 0 0 ∧
    cfgMD.minFramesPred < 2 ∧
    ((1 : ℚ)/2 - 1/2 < cfgMD.tooclose) := by
  refine ⟨?_, by norm_num [cfgMD], by norm_num [cfgMD], by norm_num [cfgMD]⟩
  unfold mdStopBranch
  rw [if_pos (by constructor <;> norm_num [cfgMD])]
  have hgaps : momentumGaps [1, 1] 0 = [] := by
    norm_num [momentumGaps, List.filter]
  rw [hgaps]
  rfl

/-- C5 (amended): inside the stopping branch, the target is emitted exactly when
every RETAINED gap — the strictly positive normalized advantages of the leader,
candidates tied with or above it being filtered out — strictly exceeds the
too-close threshold; otherwise all momenta are halved and nothing is emitted. -/
theorem momentum_stop_spec (cfg : MDConfig) (M : List ℚ) (target consecT : ℕ)
    (h : cfg.momentumThreshold < M.getD target 0 ∧ cfg.minFramesPred < consecT) :
    ((mdStopBranch cfg M target consecT).2 = some target ↔
      ∀ d ∈ momentumGaps M target, cfg.tooclose < d) ∧
    ((∃ d ∈ momentumGaps M target, d ≤ cfg.tooclose) →
      mdStopBranch cfg M target consecT = (M.map (fun v => v / 2), none)) := by
  unfold mdStopBranch
  rw [if_pos h]
  rcases hany : (momentumGaps M target).any (fun d => decide (d ≤ cfg.tooclose)) with _ | _
  · rw [if_neg (by simp [hany])]
    constructor
    · simp only [List.any_eq_false, decide_eq_true_eq] at hany
      constructor
      · intro _ d hd
        exact lt_of_not_le (hany d hd)
      · intro _
        rfl
    · intro hex
      rcases hex with ⟨d, hd, hdle⟩
      simp only [List.any_eq_false, decide_eq_true_eq] at hany
      exact absurd hdle (hany d hd)
  · rw [if_pos (by simp [hany])]
    constructor
    · constructor
      · intro hcontra
        exact absurd hcontra (by simp)
      · intro hall
        simp only [List.any_eq_true, decide_eq_true_eq] at hany
        rcases hany with ⟨d, hd, hdle⟩
        exact absurd hdle (not_le_of_lt (hall d hd))
    · intro _
      rfl

/-- C5 amended-claim witness: momenta [4, 1] with target 0 — the only retained
gap is 4/5 − 1/5 = 3/5 > 0.05, so the branch emits target 0. -/
theorem momentum_stop_spec_witness :
    (mdStopBranch cfgMD [4, 1] 0 2).2 = some 0 := by
  have h := momentum_stop_spec cfgMD [4, 1] 0 2
    (by constructor <;> norm_num [cfgMD])
  apply h.1.mpr
  have hgaps : momentumGaps [4, 1] 0 = [3/5] := by
    norm_num [momentumGaps, List.filter]
  rw [hgaps]
  intro d hd
  rw [List.mem_singleton] at hd
  rw [hd]
  norm_num [cfgMD]

/-- `AccumulationPOMDP._normalize_conf_matrix` (pomdp.py lines 65-74): mix the
row-normalized confusion matrix entrywise with the uniform distribution,
`(1 - norm_value) * M + norm_value * 1 / n_class`, where `n_class` is the
number of rows. -/
def normalizeConfMatrix (normValue : ℚ) (m : List (List ℚ)) : List (List ℚ) :=
  m.map (fun row => row.map
    (fun v => (1 - normValue) * v + normValue * 1 / (m.length : ℚ)))

/-- The row-normalized confusion matrix of a perfectly diagonal raw 4×4
confusion matrix: the identity. -/
def idMatrix4 : List (List ℚ) :=
  [[1, 0, 0, 0], [0, 1, 0, 0], [0, 0, 1, 0], [0, 0, 0, 1]]

/-- C6: the regularization is the entrywise mix
`(1 − norm_value)·M[i][j] + norm_value/numTargets`; for `norm_value = 3/10` and
the perfectly diagonal 4×4 matrix every diagonal entry is 31/40 = 0.775 and
every off-diagonal entry is 3/40 = 0.075. -/
theorem conf_matrix_regularization (normValue : ℚ) (m : List (List ℚ))
    (i j : ℕ) (hi : i < m.length) (hj : j < (m.getD i []).length) :
    ((normalizeConfMatrix normValue m).getD i []).getD j 0 =
      (1 - normValue) * ((m.getD i []).getD j 0) + normValue * 1 / (m.length : ℚ) ∧
    normalizeConfMatrix (3/10) idMatrix4 =
      [[31/40, 3/40, 3/40, 3/40], [3/40, 31/40, 3/40, 3/40],
       [3/40, 3/40, 31/40, 3/40], [3/40, 3/40, 3/40, 31/40]] := by
  constructor
  · have hrow : (normalizeConfMatrix normValue m).getD i [] =
        (m.getD i []).map
          (fun v => (1 - normValue) * v + normValue * 1 / (m.length : ℚ)) := by
      unfold normalizeConfMatrix
      rw [List.getD_eq_getElem?_getD, List.getElem?_map, List.getElem?_eq_getElem hi,
        List.getD_eq_getElem?_getD, List.getElem?_eq_getElem hi]
      rfl
    have hj2 : (m.getD i []).getD j 0 = (m.getD i []).get ⟨j, hj⟩ := by
      rw [List.getD_eq_getElem?_getD, List.getElem?_eq_getElem hj]
      simp
    rw [hrow, List.getD_eq_getElem?_getD, List.getElem?_map,
      List.getElem?_eq_getElem hj, hj2]
    simp
  · norm_num [normalizeConfMatrix, idMatrix4]

/-- C6 witness: the off-diagonal entry (0, 1) of the regularized identity is
`(1 − 3/10)·0 + (3/10)/4 = 3/40`, obtained from the entrywise formula. -/
theorem conf_matrix_regularization_witness :
    ((normalizeConfMatrix (3/10) idMatrix4).getD 0 []).getD 1 0 =
      (1 - 3/10) * ((idMatrix4.getD 0 []).getD 1 0) +
        (3/10) * 1 / (idMatrix4.length : ℚ) :=
  (conf_matrix_regularization (3/10) idMatrix4 0 1 (by norm_num [idMatrix4])
    (by norm_num [idMatrix4])).1

/-- The POMDP lifecycle status `self._pomdp_status` of pomdp.py: `none` models
Python `None` (idle), and the two string states. -/
inductive PomdpStatus where
  | solving
  | solved
  deriving DecidableEq

/-- The solver-related state of `AccumulationPOMDP` (pomdp.py lines 47-49):
lifecycle status, the installed policy object (`self._policy`) and the problem
object (`self._problem`).  The policy and problem types are parameters — they
are opaque objects produced by the external pomdp_py / bci_pomdp libraries. -/
structure PomdpSolveState (π ρ : Type) where
  status : Option PomdpStatus
  policy : Option π
  problem : Option ρ

/-- Outcome of the external `sarsop` invocation of `_compute_policy` (pomdp.py
lines 160-168): either it returns a policy object, or it raises — failure,
timeout or non-convergence error of the external solver process. -/
inductive SolverOutcome (π : Type) where
  | ok (policy : π)
  | raised

/-- The `task_ends` branch of `AccumulationPOMDP.update` (pomdp.py lines
309-330), with the already-constructed problem object `prob` and the external
solver call abstracted by its outcome.  Python exception semantics: the
statements before the raising call keep their effects (the problem was
installed at line 322), the statements after it never run — so on a raise the
assignments `self._policy = ...` (line 161) and `self._pomdp_status = "solved"`
(line 330) are both skipped and the exception propagates to the caller (the
Boolean result). -/
def taskEndsTransition {π ρ : Type} (prob : ρ) (outcome : SolverOutcome π)
    (s : PomdpSolveState π ρ) : PomdpSolveState π ρ × Bool :=
  if s.status = some PomdpStatus.solving then
    match outcome with
    | SolverOutcome.ok p =>
        ({ s with problem := some prob, policy := some p,
                  status := some PomdpStatus.solved }, false)
    | SolverOutcome.raised =>
        ({ s with problem := some prob }, true)
  else (s, false)

/-- C8: if the external SARSOP invocation fails (raises, times out or aborts on
non-convergence), the policy never reaches the `solved` status: it stays in
`solving`, no policy object is installed (no silent fallback to an untrained or
empty policy), and the failure propagates to the caller. -/
theorem pomdp_solver_failure_keeps_solving {π ρ : Type} (prob : ρ)
    (s : PomdpSolveState π ρ) (hs : s.status = some PomdpStatus.solving)
    (hp : s.policy = none) :
    (taskEndsTransition prob (SolverOutcome.raised : SolverOutcome π) s).1.status =
      some PomdpStatus.solving ∧
    (taskEndsTransition prob (SolverOutcome.raised : SolverOutcome π) s).1.policy =
      none ∧
    (taskEndsTransition prob (SolverOutcome.raised : SolverOutcome π) s).2 = true := by
  simp [taskEndsTransition, hs, hp]

/-- C8 witness: the concrete solving-state with no installed policy, solver
raising; the status stays `solving`, the policy slot stays empty, the exception
propagates. -/
theorem pomdp_solver_failure_keeps_solving_witness :
    (taskEndsTransition () (SolverOutcome.raised : SolverOutcome Unit)
        ⟨some PomdpStatus.solving, none, none⟩).1.status = some PomdpStatus.solving ∧
    (taskEndsTransition () (SolverOutcome.raised : SolverOutcome Unit)
        ⟨some PomdpStatus.solving, none, none⟩).1.policy = none ∧
    (taskEndsTransition () (SolverOutcome.raised : SolverOutcome Unit)
        ⟨some PomdpStatus.solving, none, none⟩).2 = true :=
  pomdp_solver_failure_keeps_solving () ⟨some PomdpStatus.solving, none, none⟩ rfl rfl
